import Mathlib

/-!
Verification of the `faker_rand` generator-composition engine (`src/lib.rs`).

The crate builds "generators" of fake data out of three mechanisms:

* `faker_impl_from_file!` — a pool-backed generator: the lines of a data file
  become a `Vec<String>`, and `sample` returns
  `VALUES[rng.gen_range(0..VALUES.len())].clone()`.
* `faker_impl_from_templates!` — a template-backed generator: a non-empty list
  of `(format-pattern, sub-generators)` rules; `sample` builds the vector of
  rule closures, picks one with `funcs.choose(rng).unwrap()`, and the chosen
  closure samples each sub-generator left to right and substitutes the results
  into the pattern via `format!`.
* the transform wrappers `util::ToAsciiLowercase` (deunicode, then
  `to_lowercase`, then `retain(is_ascii_lowercase)`) and
  `util::CapitalizeFirstLetter` (`chars().next().unwrap().to_uppercase()`
  chained with the rest).

The embedding below models the RandomSource capability as a stream of natural
numbers together with a cursor; each range draw `gen_range(0..n)` consumes one
stream value and reduces it modulo `n`.  A `sample` that panics in Rust
(indexing an empty pool, `Option::unwrap` on `None`) is modelled as returning
`none`.  The external `deunicode` crate is not part of this repository; the
transliteration step is therefore a parameter `d : String → String` of the
transform, and the one documented property of `deunicode` that proofs need
(ASCII text maps to itself) appears as an explicit hypothesis where used.
`char::to_uppercase` / `str::to_lowercase` are modelled by their ASCII action,
which is exact on the ASCII text these transforms produce and consume.
-/

namespace FakerRand

/-- The RandomSource capability: an infinite stream of raw draws plus the
position of the next unconsumed draw.  Two sources "seeded identically" have
pointwise-equal streams and equal cursors. -/
structure RngState where
  stream : Nat → Nat
  idx : Nat

/-- `rng.gen_range(0..n)`: consume one raw draw and reduce it into `[0, n)`. -/
def draw (n : Nat) (r : RngState) : Nat × RngState :=
  (r.stream r.idx % n, ⟨r.stream, r.idx + 1⟩)

/-- The generator graph of the crate: pools (`faker_impl_from_file!`),
templates (`faker_impl_from_templates!`), and the two transform wrappers from
`util`.  A template rule is the list of literal segments of its `format!`
pattern (`k` placeholders give `k + 1` segments) together with the ordered
sub-generator list. -/
inductive Gen where
  | pool (values : List String)
  | template (rules : List (List String × List Gen))
  | toAsciiLowercase (g : Gen)
  | capitalizeFirstLetter (g : Gen)

/-- `SliceRandom::choose`: `None` on an empty slice, otherwise the element at
a uniformly drawn index. -/
def choose {α : Type} (l : List α) (r : RngState) : Option α × RngState :=
  if l.isEmpty then (none, r)
  else
    let p := draw l.length r
    (l[p.1]?, p.2)

/-- `str::to_lowercase`, modelled by its ASCII action (the strings this is
applied to after `deunicode` are ASCII, where the two agree). -/
def toLowercase (s : String) : String :=
  String.mk (s.data.map Char.toLower)

/-- `s.data.all Char.isLower`: every character of `s` is an ASCII lowercase
letter `a`–`z`. -/
def allLower (s : String) : Bool :=
  s.data.all Char.isLower

/-- The string transform of `util::ToAsciiLowercase::sample`:
`deunicode::deunicode(x).to_lowercase()` followed by
`retain(|c| c.is_ascii_lowercase())`.  `d` stands for the external
`deunicode` transliteration. -/
def toAsciiLowercaseStr (d : String → String) (s : String) : String :=
  String.mk ((toLowercase (d s)).data.filter Char.isLower)

/-- The string transform of `util::CapitalizeFirstLetter::sample`:
`s.chars().next().unwrap().to_uppercase().chain(rest).collect()`.
`unwrap` on the empty string panics, modelled as `none`;
`char::to_uppercase` is modelled by its ASCII action. -/
def capitalizeFirstLetterStr (s : String) : Option String :=
  match s.data with
  | [] => none
  | c :: cs => some (String.mk (c.toUpper :: cs))

/-- `format!`: interleave the literal segments of the pattern with the
argument strings, the i-th argument filling the i-th placeholder. -/
def formatPattern : List String → List String → String
  | [], _ => ""
  | seg :: segs, [] => seg ++ formatPattern segs []
  | seg :: segs, v :: vals => seg ++ v ++ formatPattern segs vals

mutual

/-- `Distribution::sample` for the whole generator graph.  For a pool:
`VALUES[rng.gen_range(0..VALUES.len())].clone()` (a draw on an empty range
panics, modelled as `none`).  For a template: `funcs.choose(rng).unwrap()(rng)`
— an emptiness test, one draw for the rule index, then the chosen rule is run.
For the wrappers: sample the inner generator, then apply the pure string
transform. -/
def sample (d : String → String) : Gen → RngState → Option String × RngState
  | .pool vs, r =>
    if vs.isEmpty then (none, r)
    else
      let p := draw vs.length r
      (some (vs.getD p.1 ""), p.2)
  | .template rules, r =>
    if rules.isEmpty then (none, r)
    else
      let p := draw rules.length r
      sampleNth d rules p.1 p.2
  | .toAsciiLowercase g, r =>
    let p := sample d g r
    (p.1.map (toAsciiLowercaseStr d), p.2)
  | .capitalizeFirstLetter g, r =>
    let p := sample d g r
    match p.1 with
    | none => (none, p.2)
    | some s => (capitalizeFirstLetterStr s, p.2)

/-- Run the rule at the drawn index: sample its sub-generators left to right
and substitute the results into its pattern. -/
def sampleNth (d : String → String) :
    List (List String × List Gen) → Nat → RngState → Option String × RngState
  | [], _, r => (none, r)
  | (pat, gs) :: _, 0, r =>
    let p := sampleList d gs r
    match p.1 with
    | none => (none, p.2)
    | some vals => (some (formatPattern pat vals), p.2)
  | _ :: rest, n + 1, r => sampleNth d rest n r

/-- Sample a list of sub-generators in left-to-right order, threading the
RandomSource state; a panic in any sub-generator aborts the whole call. -/
def sampleList (d : String → String) :
    List Gen → RngState → Option (List String) × RngState
  | [], r => (some [], r)
  | g :: gs, r =>
    let p := sample d g r
    match p.1 with
    | none => (none, p.2)
    | some v =>
      let q := sampleList d gs p.2
      match q.1 with
      | none => (none, q.2)
      | some vs => (some (v :: vs), q.2)

end

/-- The shape produced by `faker_impl_from_file!`: the lines of the data file
become the backing pool.  The macro performs no emptiness check of its own. -/
def fakerImplFromFile (values : List String) : Gen :=
  Gen.pool values

/-- The shape produced by `faker_impl_from_templates!`: its grammar
(`$($fmt: expr, $($arg:ty),+);+;`) requires one or more rules, so the
constructed rule list is non-empty by construction. -/
def fakerImplFromTemplates (first : List String × List Gen)
    (rest : List (List String × List Gen)) : Gen :=
  Gen.template (first :: rest)

/-- `k` successive `sample` calls on one generator, threading the
RandomSource state; the list of produced outputs. -/
def samples (d : String → String) (g : Gen) : Nat → RngState → List (Option String)
  | 0, _ => []
  | k + 1, r =>
    let p := sample d g r
    p.1 :: samples d g k p.2

/-- Two RandomSource states that are observably identical: same cursor and
pointwise-equal streams (e.g. two instances seeded with the same seed). -/
def EqStream (r₁ r₂ : RngState) : Prop :=
  r₁.idx = r₂.idx ∧ ∀ i, r₁.stream i = r₂.stream i

/-- A rule list with one rule listed twice out of three total entries. -/
def dupRules : List (List String × List Gen) :=
  [(["a"], []), (["b"], []), (["a"], [])]

/-- The generator `Template { rules: [("{}-{}", [Pool(["x"]), Pool(["y"])])] }`. -/
def genXY : Gen :=
  Gen.template [(["", "-", ""], [Gen.pool ["x"], Gen.pool ["y"]])]

/-- The generator `Template { rules: [("{} {}", [Pool(["A"]), Pool(["B"])])] }`. -/
def genAB : Gen :=
  Gen.template [(["", " ", ""], [Gen.pool ["A"], Gen.pool ["B"]])]

/-- Identically seeded sources read the same value at the current cursor. -/
theorem EqStream.val {r₁ r₂ : RngState} (h : EqStream r₁ r₂) :
    r₁.stream r₁.idx = r₂.stream r₂.idx :=
  (h.2 r₁.idx).trans (by rw [h.1])

/-- Advancing the cursor preserves observable equality of sources. -/
theorem EqStream.succ {r₁ r₂ : RngState} (h : EqStream r₁ r₂) :
    EqStream ⟨r₁.stream, r₁.idx + 1⟩ ⟨r₂.stream, r₂.idx + 1⟩ :=
  ⟨by simp [h.1], h.2⟩

/-- A range draw on identically seeded sources yields the same value and
identically advanced sources. -/
theorem draw_ext (n : Nat) {r₁ r₂ : RngState} (h : EqStream r₁ r₂) :
    (draw n r₁).1 = (draw n r₂).1 ∧ EqStream (draw n r₁).2 (draw n r₂).2 :=
  ⟨by simp [draw, h.val], h.succ⟩

mutual

/-- `sample` depends only on the observable draw sequence of the source:
identically seeded sources give equal outputs and identically advanced
result sources. -/
theorem sample_ext (d : String → String) :
    (g : Gen) → (r₁ r₂ : RngState) → EqStream r₁ r₂ →
      (sample d g r₁).1 = (sample d g r₂).1 ∧
        EqStream (sample d g r₁).2 (sample d g r₂).2
  | .pool vs, r₁, r₂, h => by
    by_cases hvs : vs.isEmpty
    · simpa [sample, hvs] using h
    · simpa [sample, hvs, draw, h.val] using h.succ
  | .template rules, r₁, r₂, h => by
    by_cases hr : rules.isEmpty
    · simpa [sample, hr] using h
    · have hrec := sampleNth_ext d rules (r₂.stream r₂.idx % rules.length)
        ⟨r₁.stream, r₁.idx + 1⟩ ⟨r₂.stream, r₂.idx + 1⟩ h.succ
      simpa [sample, hr, draw, h.val] using hrec
  | .toAsciiLowercase g, r₁, r₂, h => by
    have ih := sample_ext d g r₁ r₂ h
    simp only [sample]
    exact ⟨by rw [ih.1], ih.2⟩
  | .capitalizeFirstLetter g, r₁, r₂, h => by
    have ih := sample_ext d g r₁ r₂ h
    simp only [sample]
    rw [ih.1]
    cases (sample d g r₂).1 <;> exact ⟨rfl, ih.2⟩

/-- `sampleNth` depends only on the observable draw sequence of the source. -/
theorem sampleNth_ext (d : String → String) :
    (rules : List (List String × List Gen)) → (n : Nat) → (r₁ r₂ : RngState) →
      EqStream r₁ r₂ →
      (sampleNth d rules n r₁).1 = (sampleNth d rules n r₂).1 ∧
        EqStream (sampleNth d rules n r₁).2 (sampleNth d rules n r₂).2
  | [], _, r₁, r₂, h => by simpa [sampleNth] using h
  | (pat, gs) :: _, 0, r₁, r₂, h => by
    have ih := sampleList_ext d gs r₁ r₂ h
    simp only [sampleNth]
    rw [ih.1]
    cases (sampleList d gs r₂).1 <;> exact ⟨rfl, ih.2⟩
  | x :: rest, n + 1, r₁, r₂, h => by
    simpa only [sampleNth] using sampleNth_ext d rest n r₁ r₂ h

/-- `sampleList` depends only on the observable draw sequence of the source. -/
theorem sampleList_ext (d : String → String) :
    (gs : List Gen) → (r₁ r₂ : RngState) → EqStream r₁ r₂ →
      (sampleList d gs r₁).1 = (sampleList d gs r₂).1 ∧
        EqStream (sampleList d gs r₁).2 (sampleList d gs r₂).2
  | [], r₁, r₂, h => by simpa [sampleList] using h
  | g :: gs, r₁, r₂, h => by
    have ih := sample_ext d g r₁ r₂ h
    have ih2 := sampleList_ext d gs (sample d g r₁).2 (sample d g r₂).2 ih.2
    simp only [sampleList]
    rw [ih.1]
    cases (sample d g r₂).1 with
    | none => exact ⟨rfl, ih.2⟩
    | some v =>
      rw [ih2.1]
      cases (sampleList d gs (sample d g r₂).2).1 <;> exact ⟨rfl, ih2.2⟩

end

/-- Claim C1: for every generator and every pair of identically seeded
RandomSource instances (equal cursors, pointwise-equal draw streams), driving
the same generator with each source produces identical output sequences for
any number `k` of successive `sample` calls — `sample` is a deterministic
function of the generator's fixed data and the RandomSource state. -/
theorem sample_deterministic (d : String → String) (g : Gen) (k : Nat)
    (r₁ r₂ : RngState) (h : EqStream r₁ r₂) :
    samples d g k r₁ = samples d g k r₂ := by
  induction k generalizing r₁ r₂ with
  | zero => rfl
  | succ k ih =>
    have hs := sample_ext d g r₁ r₂ h
    simp only [samples]
    rw [hs.1, ih _ _ hs.2]

/-- Witness for C1: two syntactically different but identically seeded
sources drive a pool generator to the same two successive outputs. -/
theorem sample_deterministic_witness :
    samples id (Gen.pool ["a", "b"]) 2 ⟨fun i => i + 0, 0⟩
      = samples id (Gen.pool ["a", "b"]) 2 ⟨fun i => i, 0⟩ :=
  sample_deterministic id (Gen.pool ["a", "b"]) 2 _ _ ⟨rfl, fun i => by simp⟩

/-- `sampleNth` at an in-range index runs exactly the rule at that index. -/
theorem sampleNth_getD (d : String → String) :
    (rules : List (List String × List Gen)) → (i : Nat) → (r : RngState) →
      i < rules.length →
      sampleNth d rules i r
        = (let q := sampleList d (rules.getD i ([], [])).2 r
           (q.1.map (formatPattern (rules.getD i ([], [])).1), q.2))
  | [], i, r, h => by simp at h
  | (pat, gs) :: rest, 0, r, h => by
    simp only [sampleNth, List.getD]
    cases hq : (sampleList d gs r).1 <;> simp [hq]
  | x :: rest, i + 1, r, h => by
    have := sampleNth_getD d rest i r (by simpa using h)
    simpa [sampleNth, List.getD] using this

/-- A template sample draws one rule index and runs the rule at that index:
its sub-generators in order, their outputs substituted into its pattern. -/
theorem sample_template_getD (d : String → String)
    (rules : List (List String × List Gen)) (r : RngState) (h : rules ≠ []) :
    sample d (Gen.template rules) r
      = (let p := draw rules.length r
         let rule := rules.getD p.1 ([], [])
         let q := sampleList d rule.2 p.2
         (q.1.map (formatPattern rule.1), q.2)) := by
  have hne : rules.isEmpty = false := by simpa [List.isEmpty_iff] using h
  have hlt : (draw rules.length r).1 < rules.length := by
    simp only [draw]
    exact Nat.mod_lt _ (List.length_pos.mpr h)
  simp only [sample, hne, Bool.false_eq_true, if_false]
  exact sampleNth_getD d rules _ _ hlt

/-- Sequencing: sampling `gs₁ ++ gs₂` first runs `gs₁` from the initial
source state, then runs `gs₂` from the state `gs₁` left behind, and
concatenates the outputs in order. -/
theorem sampleList_append_some (d : String → String) :
    (gs₁ : List Gen) → (gs₂ : List Gen) → (r : RngState) → (vs₁ : List String) →
      (r₁ : RngState) → sampleList d gs₁ r = (some vs₁, r₁) →
      sampleList d (gs₁ ++ gs₂) r
        = ((sampleList d gs₂ r₁).1.map (fun vs₂ => vs₁ ++ vs₂),
            (sampleList d gs₂ r₁).2)
  | [], gs₂, r, vs₁, r₁, h => by
    simp only [sampleList, Prod.mk.injEq, Option.some.injEq] at h
    obtain ⟨h1, h2⟩ := h
    subst h1; subst h2
    simp only [List.nil_append]
    cases hq : (sampleList d gs₂ r).1 <;> simp [hq] <;>
      exact Prod.ext_iff.mpr ⟨hq, rfl⟩
  | g :: gs₁, gs₂, r, vs₁, r₁, h => by
    simp only [sampleList] at h ⊢
    cases hp : (sample d g r).1 with
    | none => rw [hp] at h; simp at h
    | some v =>
      rw [hp] at h
      cases hq : (sampleList d gs₁ (sample d g r).2).1 with
      | none => simp [hq] at h
      | some vs' =>
        simp only [hq, Prod.mk.injEq, Option.some.injEq] at h
        obtain ⟨h1, h2⟩ := h
        subst h1
        have ih := sampleList_append_some d gs₁ gs₂ (sample d g r).2 vs'
          (sampleList d gs₁ (sample d g r).2).2 (Prod.ext_iff.mpr ⟨hq, rfl⟩)
        rw [show gs₁.append gs₂ = gs₁ ++ gs₂ from rfl, ih, h2]
        cases hq2 : (sampleList d gs₂ r₁).1 <;> simp [hq2]

/-- Sequencing, panic case: a panic inside `gs₁` aborts the whole run with
the state reached at the panic; `gs₂` is never sampled. -/
theorem sampleList_append_none (d : String → String) :
    (gs₁ : List Gen) → (gs₂ : List Gen) → (r : RngState) → (r₁ : RngState) →
      sampleList d gs₁ r = (none, r₁) →
      sampleList d (gs₁ ++ gs₂) r = (none, r₁)
  | [], gs₂, r, r₁, h => by simp [sampleList] at h
  | g :: gs₁, gs₂, r, r₁, h => by
    simp only [sampleList] at h ⊢
    cases hp : (sample d g r).1 with
    | none =>
      rw [hp] at h
      simp only [Prod.mk.injEq] at h
      simp [h.2]
    | some v =>
      rw [hp] at h
      cases hq : (sampleList d gs₁ (sample d g r).2).1 with
      | none =>
        simp only [hq, Prod.mk.injEq] at h
        have ih := sampleList_append_none d gs₁ gs₂ (sample d g r).2
          (sampleList d gs₁ (sample d g r).2).2 (Prod.ext_iff.mpr ⟨hq, rfl⟩)
        rw [show gs₁.append gs₂ = gs₁ ++ gs₂ from rfl, ih, h.2]
      | some vs' => simp [hq] at h

/-- A successful `sampleList` run produces exactly one output string per
sub-generator. -/
theorem sampleList_length (d : String → String) :
    (gs : List Gen) → (r : RngState) → (vs : List String) → (r' : RngState) →
      sampleList d gs r = (some vs, r') → vs.length = gs.length
  | [], r, vs, r', h => by
    simp only [sampleList, Prod.mk.injEq, Option.some.injEq] at h
    simp [← h.1]
  | g :: gs, r, vs, r', h => by
    simp only [sampleList] at h
    cases hp : (sample d g r).1 with
    | none => rw [hp] at h; simp at h
    | some v =>
      rw [hp] at h
      cases hq : (sampleList d gs (sample d g r).2).1 with
      | none => simp [hq] at h
      | some vs' =>
        simp only [hq, Prod.mk.injEq, Option.some.injEq] at h
        have := sampleList_length d gs (sample d g r).2 vs'
          (sampleList d gs (sample d g r).2).2 (Prod.ext_iff.mpr ⟨hq, rfl⟩)
        simp [← h.1, this]

/-- Over the `n` equiprobable draw values of a uniform draw in `[0, n)`,
each index `i < n` is selected by exactly one value. -/
theorem count_uniform_index (n i : Nat) (h : i < n) :
    ((Finset.range n).filter (fun v => v % n = i)).card = 1 := by
  have heq : (Finset.range n).filter (fun v => v % n = i)
      = (Finset.range n).filter (fun v => v = i) := by
    apply Finset.filter_congr
    intro v hv
    rw [Nat.mod_eq_of_lt (Finset.mem_range.mp hv)]
  rw [heq, Finset.filter_eq', if_pos (Finset.mem_range.mpr h)]
  exact Finset.card_singleton i

/-- Claim C2: for a template generator, `sample` runs exactly the chosen rule
(the entry at the drawn index): its sub-generators are each invoked exactly
once (one output per sub-generator), strictly left to right — the prefix
`gs₁` consumes randomness first and `gs₂` continues from the state it left —
and the i-th sampled string fills the i-th placeholder of the rule's pattern
via `formatPattern`. -/
theorem template_rule_order_subst (d : String → String)
    (rules : List (List String × List Gen)) (r : RngState) (h : rules ≠ []) :
    sample d (Gen.template rules) r
        = (let p := draw rules.length r
           let rule := rules.getD p.1 ([], [])
           let q := sampleList d rule.2 p.2
           (q.1.map (formatPattern rule.1), q.2))
      ∧ (∀ gs₁ gs₂ : List Gen, ∀ r₀ r₁ : RngState, ∀ vs₁ : List String,
          sampleList d gs₁ r₀ = (some vs₁, r₁) →
            sampleList d (gs₁ ++ gs₂) r₀
              = ((sampleList d gs₂ r₁).1.map (fun vs₂ => vs₁ ++ vs₂),
                  (sampleList d gs₂ r₁).2))
      ∧ (∀ gs : List Gen, ∀ r₀ r₁ : RngState, ∀ vs : List String,
          sampleList d gs r₀ = (some vs, r₁) → vs.length = gs.length) :=
  ⟨sample_template_getD d rules r h,
   fun gs₁ gs₂ r₀ r₁ vs₁ hs => sampleList_append_some d gs₁ gs₂ r₀ vs₁ r₁ hs,
   fun gs r₀ r₁ vs hs => sampleList_length d gs r₀ vs r₁ hs⟩

/-- Witness for C2: on the one-rule template over the singleton pools `["x"]`
and `["y"]` with the constant-zero source, sampling yields `"x-y"` after
three draws. -/
theorem template_rule_order_subst_witness :
    sample id (Gen.template [(["", "-", ""], [Gen.pool ["x"], Gen.pool ["y"]])])
        ⟨fun _ => 0, 0⟩
      = (some "x-y", ⟨fun _ => 0, 3⟩) := by
  have h := (template_rule_order_subst id
    [(["", "-", ""], [Gen.pool ["x"], Gen.pool ["y"]])] ⟨fun _ => 0, 0⟩
    (by simp)).1
  simpa [draw, sampleList, sample, formatPattern] using h

/-- Claim C3: sampling a non-empty pool of length `len` draws one index in
`[0, len)` from the RandomSource and returns a copy of the element at that
index; the index is uniformly distributed — each of the `len` indices is hit
by exactly one of the `len` equiprobable draw values, probability `1/len`.
The pool itself is immutable data of the generator and is never changed. -/
theorem pool_uniform_sample (d : String → String) (vs : List String)
    (r : RngState) (h : vs ≠ []) :
    sample d (Gen.pool vs) r
        = (some (vs.getD (r.stream r.idx % vs.length) ""),
            ⟨r.stream, r.idx + 1⟩)
      ∧ r.stream r.idx % vs.length < vs.length
      ∧ (∀ i, i < vs.length →
          ((Finset.range vs.length).filter
              (fun v => v % vs.length = i)).card = 1) := by
  have hne : vs.isEmpty = false := by simpa [List.isEmpty_iff] using h
  refine ⟨by simp [sample, hne, draw], Nat.mod_lt _ (List.length_pos.mpr h),
    fun i hi => count_uniform_index vs.length i hi⟩

/-- Witness for C3: a three-element pool with a source whose next raw draw is
`5` returns the element at index `5 % 3 = 2`. -/
theorem pool_uniform_sample_witness :
    sample id (Gen.pool ["a", "b", "c"]) ⟨fun i => i + 5, 0⟩
      = (some "c", ⟨fun i => i + 5, 1⟩) := by
  have h := (pool_uniform_sample id ["a", "b", "c"] ⟨fun i => i + 5, 0⟩
    (by simp)).1
  simpa using h

/-- Claim C4: a template generator with `n` rule entries first selects one
entry uniformly, each entry by exactly one of the `n` equiprobable draw
values (probability `1/n`); entries are not deduplicated, so in `dupRules`
— one rule listed twice out of three entries — the duplicated rule is
selected by 2 of the 3 draw values (probability `2/3`, not `1/2`) and the
other rule by 1 of 3. -/
theorem template_rule_uniform_biasing (d : String → String)
    (rules : List (List String × List Gen)) (r : RngState) (h : rules ≠ []) :
    (∀ i, i < rules.length →
        ((Finset.range rules.length).filter
            (fun v => v % rules.length = i)).card = 1)
      ∧ sample d (Gen.template rules) r
          = sampleNth d rules (r.stream r.idx % rules.length)
              ⟨r.stream, r.idx + 1⟩
      ∧ ((Finset.range 3).filter
            (fun v => (dupRules.getD (v % 3) ([], [])).1 = ["a"])).card = 2
      ∧ ((Finset.range 3).filter
            (fun v => (dupRules.getD (v % 3) ([], [])).1 = ["b"])).card = 1
      ∧ (2 : ℚ) / 3 ≠ 1 / 2 := by
  have hne : rules.isEmpty = false := by simpa [List.isEmpty_iff] using h
  refine ⟨fun i hi => count_uniform_index rules.length i hi,
    by simp [sample, hne, draw], by decide, by decide, by norm_num⟩

/-- Witness for C4: on the duplicated rule list with a source whose next draw
is `1`, sampling runs the rule at index `1 % 3 = 1`. -/
theorem template_rule_uniform_biasing_witness :
    sample id (Gen.template dupRules) ⟨fun _ => 1, 0⟩
      = sampleNth id dupRules 1 ⟨fun _ => 1, 1⟩ := by
  have h := (template_rule_uniform_biasing id dupRules ⟨fun _ => 1, 0⟩
    (by simp [dupRules])).2.1
  simpa [dupRules] using h

/-- Claim C5 is false on the code: `CapitalizeFirstLetter` on the empty
string does not return the empty string as a defined result — the
`chars().next().unwrap()` call panics on the empty string (modelled as
`none`). -/
theorem capitalizeFirst_empty_counterexample :
    capitalizeFirstLetterStr "" = none ∧ capitalizeFirstLetterStr "" ≠ some "" := by
  constructor <;> simp [capitalizeFirstLetterStr]

/-- Claim C5 as amended: on the empty string the `CapitalizeFirstLetter`
transform panics (it has no defined result); on every non-empty string it
returns a result. -/
theorem capitalizeFirst_empty_amended :
    capitalizeFirstLetterStr "" = none ∧
      ∀ s : String, s ≠ "" → (capitalizeFirstLetterStr s).isSome = true := by
  constructor
  · rfl
  · intro s hs
    cases hd : s.data with
    | nil => exact absurd (by cases s; simp_all) hs
    | cons c cs => simp [capitalizeFirstLetterStr, hd]

/-- Witness for the amended C5: the transform is defined on `"x"`. -/
theorem capitalizeFirst_empty_amended_witness :
    (capitalizeFirstLetterStr "x").isSome = true :=
  capitalizeFirst_empty_amended.2 "x" (by decide)

/-- Claim C6 is false on the code: `faker_impl_from_file!` performs no
construction-time emptiness check — construction with an empty backing list
succeeds and yields an ordinary pool generator — and the subsequent `sample`
call then fails at sample time (the range draw on `0..0` panics, modelled as
`none`). -/
theorem empty_pool_counterexample :
    fakerImplFromFile [] = Gen.pool [] ∧
      (sample id (fakerImplFromFile []) ⟨fun _ => 0, 0⟩).1 = none := by
  constructor
  · rfl
  · simp [fakerImplFromFile, sample]

/-- Claim C6 as amended: there is no construction-time check; sampling a
pool-backed generator with an empty backing list fails at sample time, and
sampling one with a non-empty backing list always succeeds. -/
theorem empty_pool_sample_time (d : String → String) (vs : List String)
    (r : RngState) :
    (vs = [] → sample d (fakerImplFromFile vs) r = (none, r)) ∧
      (vs ≠ [] → (sample d (fakerImplFromFile vs) r).1.isSome = true) := by
  constructor
  · intro h; subst h; simp [fakerImplFromFile, sample]
  · intro h
    have hne : vs.isEmpty = false := by simpa [List.isEmpty_iff] using h
    simp [fakerImplFromFile, sample, hne]

/-- Witness for the amended C6: a one-element pool samples successfully. -/
theorem empty_pool_sample_time_witness :
    (sample id (fakerImplFromFile ["a"]) ⟨fun _ => 0, 0⟩).1.isSome = true :=
  (empty_pool_sample_time id ["a"] ⟨fun _ => 0, 0⟩).2 (by simp)

/-- Every character of the ASCII-lowercase transform's output is `a`–`z`. -/
theorem allLower_toAsciiLowercaseStr (d : String → String) (s : String) :
    allLower (toAsciiLowercaseStr d s) = true := by
  rw [allLower, List.all_eq_true]
  intro c hc
  exact (List.mem_filter.mp hc).2

/-- Claim C7: `ToAsciiLowercase` transliterates (the external `deunicode`,
here the parameter `d`), lowercases, and strips every character that is not
an ASCII lowercase letter; hence every character of the output is in `a`–`z`,
the output can be strictly shorter than the input, and an empty output (no
letters survive) is a defined result, not an error. -/
theorem toAsciiLowercase_output_ascii (d : String → String) (s : String) :
    toAsciiLowercaseStr d s
        = String.mk ((toLowercase (d s)).data.filter Char.isLower)
      ∧ allLower (toAsciiLowercaseStr d s) = true
      ∧ (toAsciiLowercaseStr id "AB9").length < ("AB9" : String).length
      ∧ toAsciiLowercaseStr id "9!" = "" :=
  ⟨rfl, allLower_toAsciiLowercaseStr d s, by decide, by decide⟩

/-- ASCII lowering fixes characters that are already ASCII lowercase. -/
theorem toLower_eq_of_isLower (c : Char) (h : c.isLower = true) :
    c.toLower = c := by
  rw [Char.toLower]
  simp only [Char.isLower] at h
  have h1 : 97 ≤ c.val := by simpa using (Bool.and_eq_true_iff.mp h).1
  have h2 : ¬(c.toNat ≥ 65 ∧ c.toNat ≤ 90) := by
    intro hc
    have : c.toNat ≥ 97 := by
      simpa [Char.toNat] using h1
    omega
  rw [if_neg h2]

/-- Claim C8: the `ToAsciiLowercase` string transform is idempotent —
`f (f s) = f s` for every input `s` — given the documented `deunicode`
guarantee that strings of ASCII lowercase letters transliterate to
themselves. -/
theorem toAsciiLowercase_idempotent (d : String → String) (s : String)
    (hd : ∀ t : String, allLower t = true → d t = t) :
    toAsciiLowercaseStr d (toAsciiLowercaseStr d s) = toAsciiLowercaseStr d s := by
  have hu : allLower (toAsciiLowercaseStr d s) = true :=
    allLower_toAsciiLowercaseStr d s
  rw [toAsciiLowercaseStr, hd _ hu]
  have hdata : ∀ c ∈ (toAsciiLowercaseStr d s).data, c.isLower = true := by
    rw [allLower, List.all_eq_true] at hu
    exact hu
  rw [toLowercase]
  have hmap : (toAsciiLowercaseStr d s).data.map Char.toLower
      = (toAsciiLowercaseStr d s).data := by
    rw [List.map_congr_left fun c hc => toLower_eq_of_isLower c (hdata c hc)]
    exact List.map_id _
  rw [hmap]
  have hfil : ((toAsciiLowercaseStr d s).data).filter Char.isLower
      = (toAsciiLowercaseStr d s).data :=
    List.filter_eq_self.mpr hdata
  rw [hfil]

/-- Witness for C8: with the identity transliteration (which certainly fixes
lowercase ASCII strings), the transform is idempotent on `"Ab1"`. -/
theorem toAsciiLowercase_idempotent_witness :
    toAsciiLowercaseStr id (toAsciiLowercaseStr id "Ab1")
      = toAsciiLowercaseStr id "Ab1" :=
  toAsciiLowercase_idempotent id "Ab1" (fun _ _ => rfl)

/-- Claim C9: a template generator with exactly one rule whose
sub-generators are singleton pools returns the fixed fully substituted
string for every RandomSource: `genXY` (pattern `"{}-{}"` over `["x"]` and
`["y"]`) always returns `"x-y"`, and `genAB` (pattern `"{} {}"` over `["A"]`
and `["B"]`) always returns `"A B"`. -/
theorem singleton_template_fixed_output (d : String → String) (r : RngState) :
    (sample d genXY r).1 = some "x-y" ∧ (sample d genAB r).1 = some "A B" := by
  constructor <;>
    simp [genXY, genAB, sample, sampleNth, sampleList, draw, formatPattern,
      Nat.mod_one]

/-- Claim C10: the macro grammar of `faker_impl_from_templates!` requires at
least one rule, so the rule list built in `sample` is non-empty and the
uniform rule selection always succeeds: `choose` returns a value on every
macro-built rule list (the `unwrap` never panics), and `sample` on a
macro-built template always proceeds into running the drawn rule. -/
theorem template_choose_never_none (d : String → String)
    (first : List String × List Gen) (rest : List (List String × List Gen))
    (r : RngState) :
    ((choose (first :: rest) r).1.isSome = true)
      ∧ sample d (fakerImplFromTemplates first rest) r
          = sampleNth d (first :: rest) ((draw (first :: rest).length r).1)
              ((draw (first :: rest).length r).2) := by
  constructor
  · have hlt : r.stream r.idx % (rest.length + 1) < (first :: rest).length := by
      simpa using Nat.mod_lt (r.stream r.idx) (Nat.succ_pos rest.length)
    simp [choose, draw, List.getElem?_eq_getElem hlt]
  · simp [fakerImplFromTemplates, sample]

end FakerRand
